import Mathlib

/-
  Verification of the eKI screenplay security-check pipeline.

  Shallow embedding of the parts of the repository the verified
  properties talk about:
  * services/secure_buffer.py      (encrypted transient store)
  * services/taxonomy.py           (risk taxonomy manager)
  * parsers/pdf_scene_splitter.py  (deterministic scene splitter)
  * workflows/activities.py        (per-scene risk analysis, delivery)
  * api/routers/security.py        (one-shot report retrieval)

  Python strings are modelled as Lean String where only equality and
  upper-casing matter, and as List Char where slicing and scanning
  matter (the scene splitter).  Library calls (Fernet, json, redis)
  are modelled by their documented contracts; each such model carries
  a comment saying so.
-/

/-! ## Secure transient store (services/secure_buffer.py) -/

/-- Model of a Fernet ciphertext produced from a JSON-serialized payload.
The cryptography library's contract: decryption with the key that
encrypted returns the original plaintext, any other key fails with
InvalidToken.  The json.dumps/json.loads round trip for JSON-serializable
payloads is absorbed into the payload type: the payload is stored as the
value itself. -/
structure Cipher (α : Type) where
  fernetKey : Nat
  plaintext : α
  deriving DecidableEq, Repr

/-- Library model: Fernet.encrypt. -/
def fernetEncrypt (key : Nat) (x : α) : Cipher α := ⟨key, x⟩

/-- Library model: Fernet.decrypt; none models the InvalidToken failure. -/
def fernetDecrypt (key : Nat) (c : Cipher α) : Option α :=
  if c.fernetKey = key then some c.plaintext else none

/-- The Redis keyspace as seen through the buffer: key, remaining ttl,
encrypted blob.  Expiry itself is not modelled (no claim about it). -/
abbrev RedisState (α : Type) := List (String × Nat × Cipher α)

/-- Library model: redis SETEX overwrites any previous value of the key. -/
def redisSetex (st : RedisState α) (k : String) (ttl : Nat) (v : Cipher α) : RedisState α :=
  (k, ttl, v) :: st.filter (fun e => e.1 ≠ k)

/-- Library model: redis GET. -/
def redisGet (st : RedisState α) (k : String) : Option (Cipher α) :=
  (st.find? (fun e => e.1 = k)).map (fun e => e.2.2)

/-- Library model: redis DEL, returning the new state and the count of
keys removed. -/
def redisDelete (st : RedisState α) (ks : List String) : RedisState α × Nat :=
  (st.filter (fun e => ¬ ks.contains e.1), (st.filter (fun e => ks.contains e.1)).length)

/-- SecureBuffer (services/secure_buffer.py): the Fernet key derived once
from the server secret, plus the default ttl (21600 s). -/
structure SecureBuffer where
  fernetKey : Nat
  default_ttl : Nat
  deriving DecidableEq, Repr

/-- Errors surfaced by the buffer: NotFoundException (missing key, and
decryption failure, which retrieve converts to the same exception). -/
inductive BufError where
  | notFound (ref_key : String)
  deriving DecidableEq, Repr

/-- SecureBuffer.store: encrypt and SETEX under a fresh uuid-derived key.
The uuid4() draw is passed in as the `uuid` argument (nondeterministic
input of the model).  Returns the new store state and the ref key. -/
def SecureBuffer.store (buf : SecureBuffer) (st : RedisState α) (uuid : String)
    (data : α) (ttl_seconds : Option Nat) : RedisState α × String :=
  let ttl := ttl_seconds.getD buf.default_ttl
  let ref_key := "eki:buf:" ++ uuid
  let encrypted := fernetEncrypt buf.fernetKey data
  (redisSetex st ref_key ttl encrypted, ref_key)

/-- SecureBuffer.retrieve: GET then decrypt; a missing key raises
NotFoundException, and InvalidToken is re-raised as NotFoundException. -/
def SecureBuffer.retrieve (buf : SecureBuffer) (st : RedisState α) (ref_key : String) :
    Except BufError α :=
  match redisGet st ref_key with
  | none => .error (.notFound ref_key)
  | some encrypted =>
    match fernetDecrypt buf.fernetKey encrypted with
    | none => .error (.notFound ref_key)
    | some plaintext => .ok plaintext

/-- SecureBuffer.delete: explicit deletion of buffer entries; zero keys
short-circuit to count 0. -/
def SecureBuffer.delete (st : RedisState α) (ref_keys : List String) : RedisState α × Nat :=
  if ref_keys = [] then (st, 0) else redisDelete st ref_keys

/-! ## Risk taxonomy manager (services/taxonomy.py) -/

/-- Entry of the class index: class name maps to parent category, rule id
and description. -/
structure ClassInfo where
  category : String
  rule_id : String
  description : String
  deriving DecidableEq, Repr

/-- A measure record from measures.yaml; absent optional yaml fields are
modelled as the defaults the code substitutes (empty string for due). -/
structure MeasureInfo where
  title : String
  responsible : String
  due : String
  applies_to : List String
  deriving DecidableEq, Repr

/-- A measure resolved by the manager: the dict merge of the code key and
the yaml record. -/
structure ResolvedMeasure where
  code : String
  info : MeasureInfo
  deriving DecidableEq, Repr

/-- Model of Python str.upper restricted to ASCII letters: upper-case
every character.  Defined over the character data so that it evaluates
in the kernel. -/
def pyUpper (s : String) : String := ⟨s.data.map Char.toUpper⟩

/-- Python dict.get over an association list (first binding wins). -/
def lookupStr {β : Type} (l : List (String × β)) (k : String) : Option β :=
  (l.find? (fun e => e.1 = k)).map (fun e => e.2)

/-- TaxonomyManager state: the lookup indexes built in __init__ from
taxonomy.yaml and measures.yaml. -/
structure TaxonomyManager where
  class_index : List (String × ClassInfo)
  measures : List (String × MeasureInfo)
  thresholds : List (String × Int)
  deriving DecidableEq, Repr

/-- TaxonomyManager.is_valid_class. -/
def TaxonomyManager.is_valid_class (tm : TaxonomyManager) (class_name : String) : Bool :=
  (lookupStr tm.class_index (pyUpper class_name)).isSome

/-- TaxonomyManager.get_measure: tries the upper-cased code first, then
the exact code; the resulting record carries the upper-cased code. -/
def TaxonomyManager.get_measure (tm : TaxonomyManager) (code : String) : Option ResolvedMeasure :=
  match lookupStr tm.measures (pyUpper code) <|> lookupStr tm.measures code with
  | none => none
  | some m => some ⟨pyUpper code, m⟩

/-- TaxonomyManager.get_measures_for_class: all measures whose applies_to
contains the class (case-insensitively); the resulting records carry the
catalog-cased code. -/
def TaxonomyManager.get_measures_for_class (tm : TaxonomyManager) (class_name : String) :
    List ResolvedMeasure :=
  let cls_upper := pyUpper class_name
  (tm.measures.filter (fun cm => (cm.2.applies_to.map pyUpper).contains cls_upper)).map
    (fun cm => ⟨cm.1, cm.2⟩)

/-- TaxonomyManager.resolve_measure_codes: unknown codes are silently
skipped. -/
def TaxonomyManager.resolve_measure_codes (tm : TaxonomyManager) (codes : List String) :
    List ResolvedMeasure :=
  codes.filterMap tm.get_measure

/-- Threshold lookup: self._thresholds.get(level, 0). -/
def TaxonomyManager.thresholdFor (tm : TaxonomyManager) (level : String) : Int :=
  (lookupStr tm.thresholds level).getD 0

/-- The ordered scan `for level in ("critical", "high", "medium", "low",
"info")` returning the first level whose threshold the score reaches. -/
def TaxonomyManager.severityScan (tm : TaxonomyManager) (score : Int) : List String → String
  | [] => "info"
  | level :: rest =>
    if tm.thresholdFor level ≤ score then level else tm.severityScan score rest

/-- TaxonomyManager.calculate_severity: clamp both factors into [1,5],
multiply, and take the highest threshold the score reaches. -/
def TaxonomyManager.calculate_severity (tm : TaxonomyManager) (likelihood impact : Int) : String :=
  let l := max 1 (min 5 likelihood)
  let i := max 1 (min 5 impact)
  let score := l * i
  tm.severityScan score ["critical", "high", "medium", "low", "info"]

/-- A raw/validated LLM finding.  Fields the LLM may omit are Option;
Python dict mutation is modelled by functional record update.  The
measure_codes field is popped (set to none) by validate_finding and the
resolved records are placed in measures. -/
structure Finding where
  risk_class : Option String
  category : Option String
  rule_id : Option String
  likelihood : Option Int
  impact : Option Int
  description : String
  recommendation : String
  measure_codes : Option (List String)
  confidence : Option ℚ
  risk_level : Option String
  measures : List ResolvedMeasure
  id : Option String
  scene_number : Option String
  line_reference : Option String
  deriving DecidableEq, Repr

/-- Python `int(x or 1)`: None and 0 both fall back to 1. -/
def pyIntOr1 (x : Option Int) : Int :=
  match x with
  | none => 1
  | some v => if v = 0 then 1 else v

/-- TaxonomyManager.validate_finding: validates risk_class against the
index (unknown classes are kept, with a missing rule_id set to the empty
string), auto-fills rule_id/category for known classes when the LLM
omitted them, clamps likelihood/impact, derives risk_level, and resolves
measure codes (auto-suggesting the class measures when nothing
resolved). -/
def TaxonomyManager.validate_finding (tm : TaxonomyManager) (finding : Finding) : Finding :=
  let risk_class := pyUpper (finding.risk_class.getD "")
  let category := pyUpper (finding.category.getD "")
  let f1 :=
    match lookupStr tm.class_index risk_class with
    | some cls_info =>
      let fa :=
        if finding.rule_id.getD "" = "" then { finding with rule_id := some cls_info.rule_id }
        else finding
      if category = "" ∨ category = "UNKNOWN" then { fa with category := some cls_info.category }
      else fa
    | none =>
      if finding.rule_id.getD "" = "" then { finding with rule_id := some "" } else finding
  let f2 := { f1 with risk_class := some risk_class }
  let likelihood := max 1 (min 5 (pyIntOr1 finding.likelihood))
  let impact := max 1 (min 5 (pyIntOr1 finding.impact))
  let f3 := { f2 with
    likelihood := some likelihood
    impact := some impact
    risk_level := some (tm.calculate_severity likelihood impact) }
  let raw_codes := finding.measure_codes.getD []
  let resolved := tm.resolve_measure_codes raw_codes
  let resolved2 :=
    if risk_class ≠ "" ∧ tm.is_valid_class risk_class ∧ resolved = [] then
      tm.get_measures_for_class risk_class
    else resolved
  { f3 with measure_codes := none, measures := resolved2 }

/-- Modelled from the spec: the severity_matrix thresholds of
config/taxonomy/taxonomy.yaml, a data file that is not under src/.  The
spec states the table as critical ≥ 16, high ≥ 10, medium ≥ 5, low ≥ 2,
else info; the boundary tests in src/tests/test_taxonomy.py pin the same
values.  A level absent from the table reads as 0 via dict.get. -/
def specThresholds : List (String × Int) :=
  [("critical", 16), ("high", 10), ("medium", 5), ("low", 2)]

/-- A taxonomy manager carrying the spec threshold table (class and
measure data are irrelevant to severity calculation). -/
def specTaxonomy : TaxonomyManager :=
  { class_index := [], measures := [], thresholds := specThresholds }

/-- The severity table exactly as the spec words it: highest qualifying
threshold wins. -/
def severitySpec (score : Int) : String :=
  if 16 ≤ score then "critical"
  else if 10 ≤ score then "high"
  else if 5 ≤ score then "medium"
  else if 2 ≤ score then "low"
  else "info"

/-- Severity levels ordered info < low < medium < high < critical. -/
def severityRank (s : String) : Nat :=
  if s = "critical" then 4
  else if s = "high" then 3
  else if s = "medium" then 2
  else if s = "low" then 1
  else 0

/-- Concrete taxonomy fixture for witnesses and counterexamples: one
known class (FIRE, as the tests know it) and one measure applying to
FIRE. -/
def fireClass : ClassInfo := ⟨"PHYSICAL", "SEC-P-008", "Open flames on set"⟩

/-- Measure fixture: applies to FIRE. -/
def fireDept : MeasureInfo := ⟨"Fire department standby", "Production", "", ["FIRE"]⟩

/-- Taxonomy fixture combining the class and measure fixtures with the
spec thresholds. -/
def sampleTaxonomy : TaxonomyManager :=
  { class_index := [("FIRE", fireClass)]
    measures := [("FIRE-DEPT", fireDept)]
    thresholds := specThresholds }

/-- A finding with every optional field absent. -/
def emptyFinding : Finding :=
  { risk_class := none
    category := none
    rule_id := none
    likelihood := none
    impact := none
    description := ""
    recommendation := ""
    measure_codes := none
    confidence := none
    risk_level := none
    measures := []
    id := none
    scene_number := none
    line_reference := none }

/-- Finding fixture: a known class given in lower case, no rule_id. -/
def fireFinding : Finding :=
  { emptyFinding with risk_class := some "fire", likelihood := some 3, impact := some 4 }

/-- Finding fixture: a known class together with a measure-code list
whose only entry is unknown to the catalog. -/
def bogusCodesFinding : Finding :=
  { emptyFinding with risk_class := some "FIRE", measure_codes := some ["BOGUS"] }

/-! ## Scene splitter (parsers/pdf_scene_splitter.py)

Python text is modelled as List Char.  The SCENE_MARKER_RE regex is
embedded as a hand matcher: the alternatives are tried in the order they
appear in the pattern, a greedy star never needs to backtrack here
because no alternative continuation starts with a whitespace character,
and the MULTILINE anchor restricts match starts to line starts. -/

/-- Python \s for ASCII text: space, tab, newline, carriage return,
vertical tab, form feed (also the character class str.strip removes). -/
def isPySpace (c : Char) : Bool :=
  c = ' ' || c = '\t' || c = '\n' || c = '\r' || c = Char.ofNat 11 || c = Char.ofNat 12

/-- Python str.strip(): remove leading and trailing whitespace. -/
def pyStrip (cs : List Char) : List Char :=
  ((cs.dropWhile isPySpace).reverse.dropWhile isPySpace).reverse

/-- Case-insensitive literal match; returns the remaining suffix. -/
def matchLit : List Char → List Char → Option (List Char)
  | [], cs => some cs
  | _ :: _, [] => none
  | p :: ps, c :: cs => if c.toLower = p.toLower then matchLit ps cs else none

/-- Greedy \s* (no backtracking needed: every continuation in the
pattern starts with a non-whitespace character). -/
def dropSpaces (cs : List Char) : List Char := cs.dropWhile isPySpace

/-- An alternative of the shape A\s*/\s*B (INT./EXT. and INNEN/AUSSEN
combinations). -/
def matchDouble (a b : String) (cs : List Char) : Option (List Char) :=
  (matchLit a.toList cs).bind fun r1 =>
  (matchLit "/".toList (dropSpaces r1)).bind fun r2 =>
  matchLit b.toList (dropSpaces r2)

/-- The character class [\.\s]. -/
def matchDotSpace : List Char → Option (List Char)
  | [] => none
  | c :: cs => if c = '.' || isPySpace c then some cs else none

/-- An alternative of the shape WORD[\.\s] (INNEN and AUSSEN). -/
def matchClassWord (w : String) (cs : List Char) : Option (List Char) :=
  (matchLit w.toList cs).bind matchDotSpace

/-- The regex alternation, in pattern order; the first alternative that
matches wins (Python re alternation). -/
def matchAlts (cs : List Char) : Option (List Char) :=
  matchDouble "int." "ext." cs <|>
  matchLit "int/ext.".toList cs <|>
  matchDouble "ext." "int." cs <|>
  matchLit "ext/int.".toList cs <|>
  matchLit "int.".toList cs <|>
  matchLit "ext.".toList cs <|>
  matchDouble "innen" "aussen" cs <|>
  matchLit "innen/aussen".toList cs <|>
  matchDouble "aussen" "innen" cs <|>
  matchLit "aussen/innen".toList cs <|>
  matchClassWord "innen" cs <|>
  matchClassWord "aussen" cs

/-- A match attempt anchored at a line start: consume [ \t]* then try the
alternation. -/
def matchAt (cs : List Char) : Option (List Char) :=
  matchAlts (cs.dropWhile (fun c => c = ' ' || c = '\t'))

/-- Scanner behind SCENE_MARKER_RE.finditer: walk the text, try a match
at every line start, and resume after a match (non-overlapping
semantics).  A successful match consumes at least four characters, so
fuel equal to the text length never runs out before the text does. -/
def findMarkersAux : Nat → List Char → Bool → Nat → List Nat
  | 0, _, _, _ => []
  | _ + 1, [], _, _ => []
  | fuel + 1, c :: rest, atStart, pos =>
    if atStart then
      match matchAt (c :: rest) with
      | some r =>
        let len := (c :: rest).length - r.length
        let consumed := (c :: rest).take len
        pos :: findMarkersAux fuel r (consumed.getLast? == some '\n') (pos + len)
      | none => findMarkersAux fuel rest (c == '\n') (pos + 1)
    else
      findMarkersAux fuel rest (c == '\n') (pos + 1)

/-- All match start positions of SCENE_MARKER_RE in the text. -/
def findMarkers (cs : List Char) : List Nat := findMarkersAux cs.length cs true 0

/-- A raw text block produced by the scene splitter
(pdf_scene_splitter.RawSceneBlock). -/
structure RawSceneBlock where
  index : Nat
  text : List Char
  heading_line : List Char
  is_preamble : Bool
  deriving DecidableEq, Repr

/-- First line of a block: the text before the first newline, stripped;
the whole block when it has no newline. -/
def headingOf (block_text : List Char) : List Char :=
  if block_text.any (fun c => c = '\n') then pyStrip (block_text.takeWhile (fun c => c ≠ '\n'))
  else block_text

/-- The scene blocks: one per marker, from its start to the next marker
start (or end of text), stripped, numbered from idx0. -/
def mkSceneBlocks (full_text : List Char) (starts : List Nat) (idx0 : Nat) :
    List RawSceneBlock :=
  (List.zip starts (starts.tail ++ [full_text.length])).enum.map (fun p =>
    let block_text := pyStrip ((full_text.take p.2.2).drop p.2.1)
    ⟨idx0 + p.1, block_text, headingOf block_text, false⟩)

/-- split_into_scenes: empty/whitespace input yields no blocks; no
marker yields a single preamble block holding the stripped text;
otherwise an optional preamble block (text before the first marker, when
non-empty after stripping) followed by one block per marker. -/
def split_into_scenes (full_text : List Char) : List RawSceneBlock :=
  if full_text = [] ∨ pyStrip full_text = [] then []
  else
    match findMarkers full_text with
    | [] => [⟨0, pyStrip full_text, [], true⟩]
    | m0 :: ms =>
      let preamble_text := pyStrip (full_text.take m0)
      let pre : List RawSceneBlock :=
        if preamble_text = [] then [] else [⟨0, preamble_text, [], true⟩]
      pre ++ mkSceneBlocks full_text (m0 :: ms) pre.length

/-! ## Delivery activity (workflows/activities.py, deliver_report) -/

/-- Outcome of the outbound push POST (httpx post followed by
raise_for_status): ok for a 2xx response, fail for any exception
(connection error or error status). -/
inductive PushTransmit where
  | ok
  | fail
  deriving DecidableEq, Repr

/-- The dict deliver_report_activity returns (the fields the claims talk
about). -/
structure DeliverResult where
  delivered : Bool
  delivery_mode : String
  deriving DecidableEq, Repr

/-- deliver_report_activity.  The database metadata update sits in its
own try/except, never touches the buffer and is non-fatal, so it is not
modelled.  Push mode retrieves the report package, transmits it, and
deletes the ref key only after a successful transmission; any exception
in that block is absorbed into delivered=false with the store untouched.
Every other mode is pull: the ref stays in the store. -/
def deliver_report_activity (buf : SecureBuffer) (st : RedisState α)
    (report_ref_key : String) (delivery_mode : String) (push : PushTransmit) :
    RedisState α × DeliverResult :=
  if delivery_mode = "push" then
    match buf.retrieve st report_ref_key with
    | .error _ => (st, ⟨false, "push"⟩)
    | .ok _report_package =>
      match push with
      | .fail => (st, ⟨false, "push"⟩)
      | .ok => ((SecureBuffer.delete st [report_ref_key]).1, ⟨true, "push"⟩)
  else (st, ⟨true, "pull"⟩)

/-- Concrete one-entry store over Nat payloads, for witnesses. -/
def natStore : RedisState Nat := [("eki:buf:r", 21600, ⟨7, 42⟩)]

/-- Concrete buffer whose Fernet key matches natStore's entry. -/
def natBuffer : SecureBuffer := ⟨7, 21600⟩

/-! ## Per-scene risk analysis (workflows/activities.py, analyze_scene_risk) -/

/-- A parsed scene as stored in the parsed-script package (the fields
the activity reads; the location/time fields only feed the prompt). -/
structure SceneInfo where
  number : Option String
  location : Option String
  location_type : Option String
  time_of_day : Option String
  text : Option String
  deriving DecidableEq, Repr

/-- The parsed-script package the activity retrieves
(parsed_data.get("scenes", [])). -/
structure ParsedData where
  scenes : List SceneInfo
  deriving DecidableEq, Repr

/-- The serializable measure dict the activity builds from a resolved
measure: code, title, responsible, due. -/
structure MeasureOut where
  code : String
  title : String
  responsible : String
  due : String
  deriving DecidableEq, Repr

/-- Conversion of a resolved measure to the serializable dict. -/
def serializeMeasure (m : ResolvedMeasure) : MeasureOut :=
  ⟨m.code, m.info.title, m.info.responsible, m.info.due⟩

/-- A finding dict as the activity returns it: the validated finding
with id, scene_number, line_reference and confidence set, paired with
the serialized measure dicts that replace its measures entry. -/
structure EnrichedFinding where
  finding : Finding
  measures : List MeasureOut
  deriving DecidableEq, Repr

/-- The per-finding enrichment loop body of the activity: validate via
the taxonomy, assign id and scene_number, default confidence to 0.8
when falsy, serialize the measures. -/
def enrichFinding (tm : TaxonomyManager) (uuid : String) (scene_number : String)
    (f : Finding) : EnrichedFinding :=
  let f1 := tm.validate_finding f
  let f2 := { f1 with
    id := some uuid
    scene_number := some scene_number
    line_reference := none }
  let f3 :=
    if f2.confidence.getD 0 = 0 then { f2 with confidence := some ((4 : ℚ) / 5) } else f2
  ⟨f3, f3.measures.map serializeMeasure⟩

/-- The outcome of llm.generate_structured together with everything else
inside the activity's try block: ok carries the findings list of a
structurally valid response; error stands for any exception raised
inside the try block (LLM failure or malformed output), which the
activity absorbs into empty findings. -/
abbrev LlmOutcome := Except Unit (List Finding)

/-- The dict analyze_scene_risk_activity returns.  scene_number is none
on the out-of-range early return (the key is omitted there). -/
structure SceneRiskResult where
  scene_index : Nat
  scene_number : Option String
  findings : List EnrichedFinding
  deriving DecidableEq, Repr

/-- Everything the activity does after the parsed package has been
retrieved: the out-of-range early return, the scene lookup, and the try
block collapsing failures to empty findings. -/
def sceneAnalysisResult (parsed_data : ParsedData) (scene_index : Nat) (llm : LlmOutcome)
    (tm : TaxonomyManager) (uuid_at : Nat → String) : SceneRiskResult :=
  let scenes := parsed_data.scenes
  if scenes.length ≤ scene_index then ⟨scene_index, none, []⟩
  else
    let scene := scenes.getD scene_index ⟨none, none, none, none, none⟩
    let scene_number := scene.number.getD (toString (scene_index + 1))
    match llm with
    | .error _ => ⟨scene_index, some scene_number, []⟩
    | .ok findings =>
      ⟨scene_index, some scene_number,
        findings.enum.map (fun p => enrichFinding tm (uuid_at p.1) scene_number p.2)⟩

/-- analyze_scene_risk_activity.  The buffer retrieve runs before the
try block, so a missing or expired parsed_ref_key propagates as an
exception (the error branch); everything after it degrades to empty
findings instead of raising. -/
def analyze_scene_risk_activity (buf : SecureBuffer) (st : RedisState ParsedData)
    (parsed_ref_key : String) (scene_index : Nat) (llm : LlmOutcome)
    (tm : TaxonomyManager) (uuid_at : Nat → String) :
    Except BufError SceneRiskResult :=
  match buf.retrieve st parsed_ref_key with
  | .error e => .error e
  | .ok parsed_data => .ok (sceneAnalysisResult parsed_data scene_index llm tm uuid_at)

/-- The workflow's sequential per-scene loop
(SecurityCheckWorkflow._analyze_scenes) over a list of scene indices; an
activity exception propagates. -/
def analyzeScenesLoop (buf : SecureBuffer) (st : RedisState ParsedData)
    (parsed_ref_key : String) (llm_at : Nat → LlmOutcome) (tm : TaxonomyManager)
    (uuid_at : Nat → Nat → String) : List Nat → Except BufError (List SceneRiskResult)
  | [] => .ok []
  | i :: rest =>
    match analyze_scene_risk_activity buf st parsed_ref_key i (llm_at i) tm (uuid_at i) with
    | .error e => .error e
    | .ok r =>
      match analyzeScenesLoop buf st parsed_ref_key llm_at tm uuid_at rest with
      | .error e => .error e
      | .ok rs => .ok (r :: rs)

/-- The workflow-level outcome dict (status plus the collected per-scene
results). -/
structure WorkflowOutcome where
  status : String
  results : List SceneRiskResult
  deriving DecidableEq, Repr

/-- The SecurityCheckWorkflow.run shape around the analysis loop: an
exception escaping an activity is caught at the run level and produces
status failed; otherwise the pipeline proceeds and _report_and_deliver
returns status completed (the aggregation and delivery activities raise
nothing in this model). -/
def run_analysis_phase (buf : SecureBuffer) (st : RedisState ParsedData)
    (parsed_ref_key : String) (total_scenes : Nat) (llm_at : Nat → LlmOutcome)
    (tm : TaxonomyManager) (uuid_at : Nat → Nat → String) : WorkflowOutcome :=
  match analyzeScenesLoop buf st parsed_ref_key llm_at tm uuid_at (List.range total_scenes) with
  | .error _ => ⟨"failed", []⟩
  | .ok rs => ⟨"completed", rs⟩

/-- Parsed-script fixture with two scenes. -/
def sampleParsed : ParsedData :=
  ⟨[⟨some "1", some "KITCHEN", some "INT", some "DAY", some "Scene one text"⟩,
    ⟨some "2", some "STREET", some "EXT", some "NIGHT", some "Scene two text"⟩]⟩

/-- Store fixture holding the parsed-script package under one ref key. -/
def parsedStore : RedisState ParsedData := [("eki:buf:parsed", 21600, ⟨7, sampleParsed⟩)]

/-- An LLM behaviour that always fails on scene 0 and returns no
findings elsewhere. -/
def llmFailAt0 : Nat → LlmOutcome := fun i => if i = 0 then .error () else .ok []

/-- A degenerate uuid supply for witnesses. -/
def noUuids : Nat → Nat → String := fun _ _ => "00000000-0000-0000-0000-000000000000"

/-! ## One-shot report retrieval (api/routers/security.py, get_report) -/

/-- A ReportMetadata row (the columns get_report touches). -/
structure ReportRow where
  report_id : Nat
  user_id : Nat
  is_retrieved : Bool
  retrieved_at : Option Nat
  report_ref_key : String
  deriving DecidableEq, Repr

/-- The WHERE clause of the atomic conditional update: same report, same
owner, is_retrieved IS FALSE. -/
def matchesUnretrieved (rid uid : Nat) (r : ReportRow) : Bool :=
  r.report_id == rid && r.user_id == uid && !r.is_retrieved

/-- The WHERE clause of the fallback SELECT: same report, same owner. -/
def matchesReport (rid uid : Nat) (r : ReportRow) : Bool :=
  r.report_id == rid && r.user_id == uid

/-- The VALUES of the conditional update: is_retrieved=true plus the
retrieval timestamp. -/
def flipRetrieved (now : Nat) (r : ReportRow) : ReportRow :=
  { r with is_retrieved := true, retrieved_at := some now }

/-- The HTTP outcome of get_report: 200 with the report package (none
models the degraded expired-blob placeholder, still a 2xx response),
404 Not Found, or 410 Gone. -/
inductive GetReportOutcome (α : Type) where
  | ok200 (report : Option α)
  | http404
  | http410
  deriving DecidableEq, Repr

/-- get_report.  The atomic conditional UPDATE ... WHERE is_retrieved IS
FALSE ... RETURNING report_ref_key runs first; when it matched a row the
transaction commits and the transient blob is fetched and deleted (an
expired blob degrades to a placeholder); when it matched nothing, the
row state decides between 404 (no row for this report and owner) and
410 (already retrieved).  Sequential attempts model the serialization
the atomic update enforces. -/
def get_report (buf : SecureBuffer) (db : List ReportRow) (st : RedisState α)
    (rid uid now : Nat) : (List ReportRow × RedisState α) × GetReportOutcome α :=
  match db.find? (matchesUnretrieved rid uid) with
  | some row =>
    let db2 := db.map (fun r => if matchesUnretrieved rid uid r then flipRetrieved now r else r)
    match buf.retrieve st row.report_ref_key with
    | .ok pkg => ((db2, (SecureBuffer.delete st [row.report_ref_key]).1), .ok200 (some pkg))
    | .error _ => ((db2, st), .ok200 none)
  | none =>
    match db.find? (matchesReport rid uid) with
    | none => ((db, st), .http404)
    | some _ => ((db, st), .http410)

/-- A sequence of retrieval attempts for one report by the listed users,
threaded through database and store states. -/
def runAttempts (buf : SecureBuffer) (rid now : Nat) :
    List Nat → List ReportRow → RedisState α →
      (List ReportRow × RedisState α) × List (GetReportOutcome α)
  | [], db, st => ((db, st), [])
  | u :: us, db, st =>
    let s1 := get_report buf db st rid u now
    let rest := runAttempts buf rid now us s1.1.1 s1.1.2
    (rest.1, s1.2 :: rest.2)

/-- 2xx check on an attempt outcome. -/
def isSuccess : GetReportOutcome α → Bool
  | .ok200 _ => true
  | _ => false

/-- Database fixture: one report row, owned by user 7, not yet
retrieved. -/
def oneShotDb : List ReportRow := [⟨1, 7, false, none, "eki:buf:r"⟩]

/-! ## Theorems -/

/-- Helper: find? over a filtered list whose filter contradicts the
predicate yields none. -/
theorem find?_filter_none {α : Type} (l : List α) (p q : α → Bool)
    (h : ∀ x, q x = true → p x = false) : (l.filter q).find? p = none := by
  apply List.find?_eq_none.mpr
  intro x hx
  have hq : q x = true := (List.mem_filter.mp hx).2
  simp [h x hq]

/-- Helper: find? with a constantly false predicate yields none. -/
theorem find?_const_false {α : Type} (l : List α) :
    l.find? (fun _ => false) = none := by
  apply List.find?_eq_none.mpr
  intro x _
  simp

/-- C2. Buffer round trip: for every payload P, retrieving the reference
key returned by store(P) yields P, and after delete of that key the
retrieve fails with NotFound. -/
theorem secure_buffer_roundtrip {α : Type} (buf : SecureBuffer) (st : RedisState α)
    (uuid : String) (ttl : Option Nat) (P : α) :
    buf.retrieve (buf.store st uuid P ttl).1 (buf.store st uuid P ttl).2 = .ok P
    ∧ buf.retrieve (SecureBuffer.delete (buf.store st uuid P ttl).1
          [(buf.store st uuid P ttl).2]).1 (buf.store st uuid P ttl).2
        = .error (.notFound (buf.store st uuid P ttl).2) := by
  constructor
  · simp [SecureBuffer.store, SecureBuffer.retrieve, redisSetex, redisGet,
      fernetEncrypt, fernetDecrypt, List.find?]
  · have hfind : ∀ (l : RedisState α) (k : String),
        ((l.filter (fun e => ¬ [k].contains e.1)).find? (fun e => e.1 = k)) = none := by
      intro l k
      apply find?_filter_none
      intro x hx
      simp at hx
      simp [hx]
    simp [SecureBuffer.store, SecureBuffer.delete, SecureBuffer.retrieve,
      redisSetex, redisGet, redisDelete, hfind, find?_const_false]

/-- C4. For likelihood and impact in [1,5], calculate_severity agrees
with the spec's ordered threshold table applied to the product, the
highest qualifying threshold winning; in particular (4,4) is critical
and (3,5) is high. -/
theorem calculate_severity_table (l i : Int) (h1 : 1 ≤ l) (h2 : l ≤ 5)
    (h3 : 1 ≤ i) (h4 : i ≤ 5) :
    specTaxonomy.calculate_severity l i = severitySpec (l * i)
    ∧ specTaxonomy.calculate_severity 4 4 = "critical"
    ∧ specTaxonomy.calculate_severity 3 5 = "high" := by
  refine ⟨?_, by decide, by decide⟩
  interval_cases l <;> interval_cases i <;> decide

/-- Witness for C4 at likelihood 4, impact 4. -/
theorem calculate_severity_table_witness :
    (1 : Int) ≤ 4 ∧ specTaxonomy.calculate_severity 4 4 = severitySpec (4 * 4) :=
  ⟨by decide,
    (calculate_severity_table 4 4 (by decide) (by decide) (by decide) (by decide)).1⟩

/-- C5. For likelihood and impact in [1,5], calculate_severity is
monotone in each argument under the ordering info < low < medium < high
< critical. -/
theorem calculate_severity_monotone (l1 l2 i : Int) (h1 : 1 ≤ l1) (h2 : l1 ≤ 5)
    (h3 : 1 ≤ l2) (h4 : l2 ≤ 5) (h5 : 1 ≤ i) (h6 : i ≤ 5) (h7 : l1 ≤ l2) :
    severityRank (specTaxonomy.calculate_severity l1 i)
      ≤ severityRank (specTaxonomy.calculate_severity l2 i)
    ∧ severityRank (specTaxonomy.calculate_severity i l1)
      ≤ severityRank (specTaxonomy.calculate_severity i l2) := by
  interval_cases l1 <;> interval_cases l2 <;> interval_cases i <;> decide

/-- Witness for C5 at likelihood 2 vs 3, impact 4. -/
theorem calculate_severity_monotone_witness :
    (2 : Int) ≤ 3 ∧ severityRank (specTaxonomy.calculate_severity 2 4)
      ≤ severityRank (specTaxonomy.calculate_severity 3 4) :=
  ⟨by decide,
    (calculate_severity_monotone 2 3 4 (by decide) (by decide) (by decide) (by decide)
      (by decide) (by decide) (by decide)).1⟩

/-- C7. Validation of the risk class: an unknown class is kept as-is
(upper-cased) with the rule_id not auto-filled (an omitted rule_id stays
empty); a known class auto-fills rule_id and category exactly when the
LLM omitted them (the category also counting the explicit UNKNOWN marker
as omitted). -/
theorem validate_finding_class_handling (tm : TaxonomyManager) (f : Finding) :
    (lookupStr tm.class_index (pyUpper (f.risk_class.getD "")) = none →
      (tm.validate_finding f).risk_class = some (pyUpper (f.risk_class.getD ""))
      ∧ (tm.validate_finding f).rule_id = some (f.rule_id.getD "")
      ∧ (tm.validate_finding f).category = f.category)
    ∧ (∀ info, lookupStr tm.class_index (pyUpper (f.risk_class.getD "")) = some info →
      (tm.validate_finding f).risk_class = some (pyUpper (f.risk_class.getD ""))
      ∧ (tm.validate_finding f).rule_id
          = some (if f.rule_id.getD "" = "" then info.rule_id else f.rule_id.getD "")
      ∧ (tm.validate_finding f).category
          = (if pyUpper (f.category.getD "") = "" ∨ pyUpper (f.category.getD "") = "UNKNOWN"
             then some info.category else f.category)) := by
  constructor
  · intro h
    cases hfr : f.rule_id with
    | none => simp [TaxonomyManager.validate_finding, h, hfr]
    | some x =>
      by_cases hx : x = "" <;>
        simp [TaxonomyManager.validate_finding, h, hfr, hx]
  · intro info h
    by_cases hc : pyUpper (f.category.getD "") = "" ∨ pyUpper (f.category.getD "") = "UNKNOWN" <;>
      cases hfr : f.rule_id with
      | none => simp [TaxonomyManager.validate_finding, h, hfr, hc]
      | some x =>
        by_cases hx : x = "" <;>
          simp [TaxonomyManager.validate_finding, h, hfr, hx, hc]

/-- Witness for C7: the known class FIRE (given lower-case) gets its
rule_id auto-filled from the taxonomy. -/
theorem validate_finding_class_handling_witness :
    lookupStr sampleTaxonomy.class_index (pyUpper (fireFinding.risk_class.getD ""))
        = some fireClass
    ∧ (sampleTaxonomy.validate_finding fireFinding).rule_id = some "SEC-P-008" := by
  have h := (validate_finding_class_handling sampleTaxonomy fireFinding).2 fireClass (by decide)
  exact ⟨by decide, by simpa [fireFinding, emptyFinding, fireClass] using h.2.1⟩

/-- C8 (amended). The measures of a validated finding are the records
resolved from the given codes (unknown codes silently dropped), except
that when that resolution is empty (no codes given, or every given code
unknown) and the risk class is non-empty and known, the measures are all
catalog measures whose applies_to includes the class. -/
theorem validate_finding_measures_resolution (tm : TaxonomyManager) (f : Finding) :
    (tm.validate_finding f).measures =
      (if pyUpper (f.risk_class.getD "") ≠ ""
          ∧ tm.is_valid_class (pyUpper (f.risk_class.getD ""))
          ∧ tm.resolve_measure_codes (f.measure_codes.getD []) = []
       then tm.get_measures_for_class (pyUpper (f.risk_class.getD ""))
       else tm.resolve_measure_codes (f.measure_codes.getD [])) := by
  rfl

/-- Counterexample for C8 as frozen: a finding that does give measure
codes (all unknown) with a known risk class; the claim predicts the
empty resolved list, the code auto-suggests the class measures. -/
theorem validate_finding_measures_cex :
    sampleTaxonomy.resolve_measure_codes ["BOGUS"] = []
    ∧ bogusCodesFinding.measure_codes = some ["BOGUS"]
    ∧ (sampleTaxonomy.validate_finding bogusCodesFinding).measures = [⟨"FIRE-DEPT", fireDept⟩]
    ∧ (sampleTaxonomy.validate_finding bogusCodesFinding).measures
        ≠ sampleTaxonomy.resolve_measure_codes ["BOGUS"] := by
  refine ⟨by decide, by decide, by decide, by decide⟩

/-- Counterexample for C6 as frozen: a whitespace-only text has no
marker match, yet split_into_scenes returns no block at all (the
empty/whitespace guard fires before the no-marker branch), not exactly
one preamble block. -/
theorem split_no_marker_cex :
    "   ".toList ≠ [] ∧ findMarkers ("   ".toList) = []
    ∧ split_into_scenes ("   ".toList) = [] := by
  refine ⟨by decide, by decide, by decide⟩

/-- C6 (amended). For every input that is not empty/whitespace-only and
in which the scene-marker regex has no match, split_into_scenes returns
exactly one preamble block (empty heading) whose text is the stripped
input. -/
theorem split_no_marker_preamble (t : List Char) (h1 : pyStrip t ≠ [])
    (h2 : findMarkers t = []) :
    split_into_scenes t = [⟨0, pyStrip t, [], true⟩] := by
  have ht : t ≠ [] := by
    intro h
    subst h
    exact h1 rfl
  simp [split_into_scenes, h2, ht, h1]

/-- Witness for C6 at a two-word text with no marker. -/
theorem split_no_marker_preamble_witness :
    pyStrip ("Hallo Welt".toList) ≠ [] ∧ findMarkers ("Hallo Welt".toList) = []
    ∧ split_into_scenes ("Hallo Welt".toList)
        = [⟨0, pyStrip ("Hallo Welt".toList), [], true⟩] :=
  ⟨by decide, by decide, split_no_marker_preamble ("Hallo Welt".toList) (by decide) (by decide)⟩

/-- Helper: with at least one marker the scene-block list is never
empty. -/
theorem mkSceneBlocks_ne_nil (ft : List Char) (m0 : Nat) (ms : List Nat) (i : Nat) :
    mkSceneBlocks ft (m0 :: ms) i ≠ [] := by
  have hlen : (mkSceneBlocks ft (m0 :: ms) i).length = ms.length + 1 := by
    simp [mkSceneBlocks]
  intro h
  rw [h] at hlen
  simp at hlen

/-- C10. split_into_scenes returns the empty list exactly for
empty/whitespace-only input. -/
theorem split_empty_iff (t : List Char) :
    split_into_scenes t = [] ↔ pyStrip t = [] := by
  constructor
  · intro h
    by_contra hne
    have ht : t ≠ [] := by
      intro h0
      subst h0
      exact hne rfl
    have hcond : ¬ (t = [] ∨ pyStrip t = []) := by
      simp [ht, hne]
    rw [split_into_scenes, if_neg hcond] at h
    cases hm : findMarkers t with
    | nil =>
      rw [hm] at h
      simp at h
    | cons m0 ms =>
      rw [hm] at h
      have := List.append_eq_nil.mp h
      exact mkSceneBlocks_ne_nil t m0 ms _ this.2
  · intro h
    simp [split_into_scenes, h]

/-- Helper: a key is no longer readable after SecureBuffer.delete. -/
theorem redisGet_after_delete {α : Type} (st : RedisState α) (k : String) :
    redisGet (SecureBuffer.delete st [k]).1 k = none := by
  have hfind : (st.filter (fun e => ¬ [k].contains e.1)).find? (fun e => e.1 = k) = none := by
    apply find?_filter_none
    intro x hx
    simp at hx
    simp [hx]
  simp [SecureBuffer.delete, redisDelete, redisGet, hfind]

/-- C9. Push-mode delivery: a successful transmission deletes the
report-package ref key and reports delivered=true; a failed transmission
leaves the store exactly as it was (the ref still retrievable for pull
fallback) and reports delivered=false instead of raising. -/
theorem deliver_push_fallback {α : Type} (buf : SecureBuffer) (st : RedisState α)
    (ref : String) (pkg : α) (h : buf.retrieve st ref = .ok pkg) :
    (deliver_report_activity buf st ref "push" .ok).2.delivered = true
    ∧ redisGet (deliver_report_activity buf st ref "push" .ok).1 ref = none
    ∧ (deliver_report_activity buf st ref "push" .fail).1 = st
    ∧ (deliver_report_activity buf st ref "push" .fail).2.delivered = false
    ∧ buf.retrieve (deliver_report_activity buf st ref "push" .fail).1 ref = .ok pkg := by
  refine ⟨?_, ?_, ?_, ?_, ?_⟩ <;>
    simp [deliver_report_activity, h, redisGet_after_delete]

/-- Witness for C9 on a one-entry store. -/
theorem deliver_push_fallback_witness :
    natBuffer.retrieve natStore "eki:buf:r" = .ok 42
    ∧ (deliver_report_activity natBuffer natStore "eki:buf:r" "push" .ok).2.delivered = true
    ∧ (deliver_report_activity natBuffer natStore "eki:buf:r" "push" .fail).1 = natStore := by
  have h : natBuffer.retrieve natStore "eki:buf:r" = .ok 42 := by rfl
  have hmain := deliver_push_fallback natBuffer natStore "eki:buf:r" 42 h
  exact ⟨h, hmain.1, hmain.2.2.1⟩

/-- Counterexample for C3 as frozen: with a reference key that is not in
the buffer the activity raises (the retrieve sits before the try block),
rather than returning empty findings. -/
theorem analyze_scene_risk_missing_key_cex :
    analyze_scene_risk_activity natBuffer [] "eki:buf:missing" 0 (.ok []) sampleTaxonomy
        (fun _ => "u")
      = .error (.notFound "eki:buf:missing") := rfl

/-- Helper: once the parsed package resolves, the activity returns
normally with the value described by sceneAnalysisResult. -/
theorem analyze_scene_risk_ok (buf : SecureBuffer) (st : RedisState ParsedData)
    (key : String) (parsed : ParsedData) (i : Nat) (llm : LlmOutcome)
    (tm : TaxonomyManager) (u : Nat → String)
    (hkey : buf.retrieve st key = .ok parsed) :
    analyze_scene_risk_activity buf st key i llm tm u
      = .ok (sceneAnalysisResult parsed i llm tm u) := by
  simp [analyze_scene_risk_activity, hkey]

/-- Helper: the loop collects exactly the per-index activity values when
the parsed package resolves. -/
theorem analyzeScenesLoop_ok (buf : SecureBuffer) (st : RedisState ParsedData)
    (key : String) (parsed : ParsedData) (llm_at : Nat → LlmOutcome)
    (tm : TaxonomyManager) (uuid_at : Nat → Nat → String)
    (hkey : buf.retrieve st key = .ok parsed) (idxs : List Nat) :
    analyzeScenesLoop buf st key llm_at tm uuid_at idxs
      = .ok (idxs.map (fun i => sceneAnalysisResult parsed i (llm_at i) tm (uuid_at i))) := by
  induction idxs with
  | nil => rfl
  | cons i rest ih =>
    simp [analyzeScenesLoop, analyze_scene_risk_ok buf st key parsed i (llm_at i) tm
      (uuid_at i) hkey, ih]

/-- C3 (amended). When the parsed-script reference key resolves in the
buffer, the activity never raises; a job whose scene k has a
permanently failing LLM still completes with status completed, every
scene's entry is exactly its own activity result, and scene k's
findings list is empty. -/
theorem analyze_scene_risk_resilient (buf : SecureBuffer) (st : RedisState ParsedData)
    (key : String) (parsed : ParsedData) (tm : TaxonomyManager)
    (llm_at : Nat → LlmOutcome) (uuid_at : Nat → Nat → String) (k : Nat)
    (hkey : buf.retrieve st key = .ok parsed) (hfail : llm_at k = .error ()) :
    (∀ (i : Nat) (llm : LlmOutcome) (u : Nat → String),
      ∃ r, analyze_scene_risk_activity buf st key i llm tm u = .ok r)
    ∧ (run_analysis_phase buf st key parsed.scenes.length llm_at tm uuid_at).status
        = "completed"
    ∧ (run_analysis_phase buf st key parsed.scenes.length llm_at tm uuid_at).results.length
        = parsed.scenes.length
    ∧ (∀ i : Nat, i < parsed.scenes.length →
        analyze_scene_risk_activity buf st key i (llm_at i) tm (uuid_at i)
          = .ok ((run_analysis_phase buf st key parsed.scenes.length llm_at tm
              uuid_at).results.getD i ⟨i, none, []⟩))
    ∧ (k < parsed.scenes.length →
        ((run_analysis_phase buf st key parsed.scenes.length llm_at tm
            uuid_at).results.getD k ⟨k, none, []⟩).findings = []) := by
  have hloop := analyzeScenesLoop_ok buf st key parsed llm_at tm uuid_at hkey
    (List.range parsed.scenes.length)
  have hrun : run_analysis_phase buf st key parsed.scenes.length llm_at tm uuid_at
      = ⟨"completed", (List.range parsed.scenes.length).map
          (fun i => sceneAnalysisResult parsed i (llm_at i) tm (uuid_at i))⟩ := by
    simp [run_analysis_phase, hloop]
  refine ⟨?_, ?_, ?_, ?_, ?_⟩
  · intro i llm u
    exact ⟨_, analyze_scene_risk_ok buf st key parsed i llm tm u hkey⟩
  · rw [hrun]
  · rw [hrun]
    simp
  · intro i hi
    rw [hrun]
    have hgd : ((List.range parsed.scenes.length).map
        (fun j => sceneAnalysisResult parsed j (llm_at j) tm (uuid_at j))).getD i
          ⟨i, none, []⟩
        = sceneAnalysisResult parsed i (llm_at i) tm (uuid_at i) := by
      simp [List.getD, List.getElem?_map, List.getElem?_range, hi]
    rw [hgd]
    exact analyze_scene_risk_ok buf st key parsed i (llm_at i) tm (uuid_at i) hkey
  · intro hk
    rw [hrun]
    have hgd : ((List.range parsed.scenes.length).map
        (fun j => sceneAnalysisResult parsed j (llm_at j) tm (uuid_at j))).getD k
          ⟨k, none, []⟩
        = sceneAnalysisResult parsed k (llm_at k) tm (uuid_at k) := by
      simp [List.getD, List.getElem?_map, List.getElem?_range, hk]
    rw [hgd]
    simp [sceneAnalysisResult, Nat.not_le.mpr hk, hfail]

/-- Witness for C3 on the two-scene fixture with the LLM failing on
scene 0. -/
theorem analyze_scene_risk_resilient_witness :
    natBuffer.retrieve parsedStore "eki:buf:parsed" = .ok sampleParsed
    ∧ llmFailAt0 0 = .error ()
    ∧ (run_analysis_phase natBuffer parsedStore "eki:buf:parsed" sampleParsed.scenes.length
        llmFailAt0 sampleTaxonomy noUuids).status = "completed" := by
  have hkey : natBuffer.retrieve parsedStore "eki:buf:parsed" = .ok sampleParsed := by rfl
  have h := analyze_scene_risk_resilient natBuffer parsedStore "eki:buf:parsed" sampleParsed
    sampleTaxonomy llmFailAt0 noUuids 0 hkey (by rfl)
  exact ⟨hkey, by rfl, h.2.1⟩

/-- Helper: find? on a list whose only candidate satisfying the
predicate can be x (and x is a member) returns x when x satisfies it
and nothing otherwise. -/
theorem find?_of_unique {β : Type} (l : List β) (p : β → Bool) (x : β)
    (hx : x ∈ l) (hu : ∀ y ∈ l, p y = true → y = x) :
    l.find? p = if p x then some x else none := by
  induction l with
  | nil => cases hx
  | cons a l ih =>
    by_cases hpa : p a = true
    · have hax : a = x := hu a (List.mem_cons_self a l) hpa
      subst hax
      simp [List.find?_cons, hpa]
    · have hpa' : p a = false := by
        cases h : p a
        · rfl
        · exact absurd h hpa
      rcases List.mem_cons.mp hx with hxa | hxl
      · subst hxa
        have hnone : l.find? p = none := by
          apply List.find?_eq_none.mpr
          intro y hy hp
          exact hpa ((hu y (List.mem_cons_of_mem x hy) hp) ▸ hp)
        simp [List.find?_cons, hpa', hnone]
      · have hrec := ih hxl (fun y hy hp => hu y (List.mem_cons_of_mem a hy) hp)
        simp [List.find?_cons, hpa', hrec]

/-- Helper: an attempt by the owner on a not-yet-retrieved report
succeeds and flips exactly that row, every row for the report in the
new database being the flipped one. -/
theorem get_report_owner_unretrieved {α : Type} (buf : SecureBuffer)
    (db : List ReportRow) (st : RedisState α) (rid uid now : Nat) (row : ReportRow)
    (hmem : row ∈ db) (hid : row.report_id = rid) (huid : row.user_id = uid)
    (huniq : ∀ r ∈ db, r.report_id = rid → r = row)
    (hunret : row.is_retrieved = false) :
    ∃ (st2 : RedisState α) (o : GetReportOutcome α),
      get_report buf db st rid uid now
        = ((db.map (fun r => if matchesUnretrieved rid uid r then flipRetrieved now r else r),
            st2), o)
      ∧ isSuccess o = true
      ∧ flipRetrieved now row
          ∈ db.map (fun r => if matchesUnretrieved rid uid r then flipRetrieved now r else r)
      ∧ (∀ r ∈ db.map (fun r => if matchesUnretrieved rid uid r then flipRetrieved now r else r),
          r.report_id = rid → r = flipRetrieved now row)
      ∧ (flipRetrieved now row).report_id = rid
      ∧ (flipRetrieved now row).user_id = uid
      ∧ (flipRetrieved now row).is_retrieved = true := by
  have hprow : matchesUnretrieved rid uid row = true := by
    simp [matchesUnretrieved, hid, huid, hunret]
  have hfind : db.find? (matchesUnretrieved rid uid) = some row := by
    rw [find?_of_unique db (matchesUnretrieved rid uid) row hmem]
    · simp [hprow]
    · intro y hy hp
      have hy' : y.report_id = rid := by
        simp [matchesUnretrieved] at hp
        exact hp.1.1
      exact huniq y hy hy'
  have hmap_mem : flipRetrieved now row
      ∈ db.map (fun r => if matchesUnretrieved rid uid r then flipRetrieved now r else r) := by
    apply List.mem_map.mpr
    exact ⟨row, hmem, by simp [hprow]⟩
  have hmap_uniq : ∀ r ∈ db.map
      (fun r => if matchesUnretrieved rid uid r then flipRetrieved now r else r),
      r.report_id = rid → r = flipRetrieved now row := by
    intro r hr hrid
    obtain ⟨r0, hr0, rfl⟩ := List.mem_map.mp hr
    have hr0id : r0.report_id = rid := by
      by_cases hm : matchesUnretrieved rid uid r0 = true
      · simpa [hm, flipRetrieved] using hrid
      · simpa [hm] using hrid
    have : r0 = row := huniq r0 hr0 hr0id
    subst this
    simp [hprow]
  cases hb : buf.retrieve st row.report_ref_key with
  | ok pkg =>
    refine ⟨(SecureBuffer.delete st [row.report_ref_key]).1, .ok200 (some pkg), ?_, rfl,
      hmap_mem, hmap_uniq, by simp [flipRetrieved, hid], by simp [flipRetrieved, huid],
      by simp [flipRetrieved]⟩
    simp [get_report, hfind, hb]
  | error e =>
    refine ⟨st, .ok200 none, ?_, rfl,
      hmap_mem, hmap_uniq, by simp [flipRetrieved, hid], by simp [flipRetrieved, huid],
      by simp [flipRetrieved]⟩
    simp [get_report, hfind, hb]

/-- Helper: an attempt by the owner on an already-retrieved report
returns 410 Gone and changes nothing. -/
theorem get_report_owner_gone {α : Type} (buf : SecureBuffer)
    (db : List ReportRow) (st : RedisState α) (rid uid now : Nat) (row : ReportRow)
    (hmem : row ∈ db) (hid : row.report_id = rid) (huid : row.user_id = uid)
    (huniq : ∀ r ∈ db, r.report_id = rid → r = row)
    (hret : row.is_retrieved = true) :
    get_report buf db st rid uid now = ((db, st), .http410) := by
  have hfind1 : db.find? (matchesUnretrieved rid uid) = none := by
    rw [find?_of_unique db (matchesUnretrieved rid uid) row hmem]
    · simp [matchesUnretrieved, hret]
    · intro y hy hp
      have hy' : y.report_id = rid := by
        simp [matchesUnretrieved] at hp
        exact hp.1.1
      exact huniq y hy hy'
  have hfind2 : db.find? (matchesReport rid uid) = some row := by
    rw [find?_of_unique db (matchesReport rid uid) row hmem]
    · simp [matchesReport, hid, huid]
    · intro y hy hp
      have hy' : y.report_id = rid := by
        simp [matchesReport] at hp
        exact hp.1
      exact huniq y hy hy'
  simp [get_report, hfind1, hfind2]

/-- Helper: an attempt by anyone who does not own the report returns
404 and changes nothing. -/
theorem get_report_other_user {α : Type} (buf : SecureBuffer)
    (db : List ReportRow) (st : RedisState α) (rid uid u now : Nat) (row : ReportRow)
    (hmem : row ∈ db) (hid : row.report_id = rid) (huid : row.user_id = uid)
    (huniq : ∀ r ∈ db, r.report_id = rid → r = row)
    (hu : u ≠ uid) :
    get_report buf db st rid u now = ((db, st), .http404) := by
  have hfind1 : db.find? (matchesUnretrieved rid u) = none := by
    apply List.find?_eq_none.mpr
    intro y hy hp
    simp [matchesUnretrieved] at hp
    obtain ⟨⟨h1, h2⟩, h3⟩ := hp
    have h4 : y = row := huniq y hy h1
    rw [h4] at h2
    omega
  have hfind2 : db.find? (matchesReport rid u) = none := by
    apply List.find?_eq_none.mpr
    intro y hy hp
    simp [matchesReport] at hp
    obtain ⟨h1, h2⟩ := hp
    have h4 : y = row := huniq y hy h1
    rw [h4] at h2
    omega
  simp [get_report, hfind1, hfind2]

/-- Helper: once the report row is flipped, no later attempt for the
report ever succeeds again, whoever makes it. -/
theorem runAttempts_gone {α : Type} (buf : SecureBuffer) (rid uid now : Nat)
    (row : ReportRow) :
    ∀ (us : List Nat) (db : List ReportRow) (st : RedisState α),
      row ∈ db → row.report_id = rid → row.user_id = uid →
      (∀ r ∈ db, r.report_id = rid → r = row) → row.is_retrieved = true →
      (runAttempts buf rid now us db st).2.filter isSuccess = [] := by
  intro us
  induction us with
  | nil =>
    intro db st _ _ _ _ _
    rfl
  | cons u us ih =>
    intro db st hmem hid huid huniq hret
    by_cases hu : u = uid
    · subst hu
      have hB := get_report_owner_gone buf db st rid u now row hmem hid huid huniq hret
      have hrec := ih db st hmem hid huid huniq hret
      simp [runAttempts, hB, isSuccess, hrec]
    · have hC := get_report_other_user buf db st rid uid u now row hmem hid huid huniq hu
      have hrec := ih db st hmem hid huid huniq hret
      simp [runAttempts, hC, isSuccess, hrec]

/-- Helper: from a not-yet-retrieved row, any sequence of attempts for
the report produces exactly one success when the owner appears in it and
none otherwise. -/
theorem runAttempts_exactly_one {α : Type} (buf : SecureBuffer) (rid uid now : Nat)
    (row : ReportRow) :
    ∀ (us : List Nat) (db : List ReportRow) (st : RedisState α),
      row ∈ db → row.report_id = rid → row.user_id = uid →
      (∀ r ∈ db, r.report_id = rid → r = row) → row.is_retrieved = false →
      ((runAttempts buf rid now us db st).2.filter isSuccess).length
        = if uid ∈ us then 1 else 0 := by
  intro us
  induction us with
  | nil =>
    intro db st _ _ _ _ _
    simp [runAttempts]
  | cons u us ih =>
    intro db st hmem hid huid huniq hunret
    by_cases hu : u = uid
    · subst hu
      obtain ⟨st2, o, heq, hsucc, hmem2, huniq2, hid2, huid2, hret2⟩ :=
        get_report_owner_unretrieved buf db st rid u now row hmem hid huid huniq hunret
      have hrest := runAttempts_gone buf rid u now (flipRetrieved now row) us _ st2
        hmem2 hid2 huid2 huniq2 hret2
      simp [runAttempts, heq, hsucc, hrest]
    · have hC := get_report_other_user buf db st rid uid u now row hmem hid huid huniq hu
      have hrec := ih db st hmem hid huid huniq hunret
      simp [runAttempts, hC, isSuccess, hrec, List.mem_cons, Ne.symm hu]

/-- C1. One-shot retrieval: with a unique metadata row for the report,
an attempt by the owner succeeds exactly when the atomic conditional
update flips is_retrieved from false to true (the new database holds
only the flipped row for this report); from the resulting state every
later owner attempt returns 410 Gone without further change; and any
sequence of attempts for the report contains exactly one success when
the owner attempts at all, none otherwise. -/
theorem one_shot_report_retrieval {α : Type} (buf : SecureBuffer) (db : List ReportRow)
    (st : RedisState α) (rid uid now : Nat) (row : ReportRow)
    (hmem : row ∈ db) (hid : row.report_id = rid) (huid : row.user_id = uid)
    (huniq : ∀ r ∈ db, r.report_id = rid → r = row) :
    (isSuccess (get_report buf db st rid uid now).2 = !row.is_retrieved)
    ∧ (row.is_retrieved = false →
        flipRetrieved now row ∈ (get_report buf db st rid uid now).1.1
        ∧ ∀ r ∈ (get_report buf db st rid uid now).1.1, r.report_id = rid →
            r = flipRetrieved now row)
    ∧ (row.is_retrieved = false →
        get_report buf (get_report buf db st rid uid now).1.1
            (get_report buf db st rid uid now).1.2 rid uid now
          = (((get_report buf db st rid uid now).1.1,
              (get_report buf db st rid uid now).1.2), .http410))
    ∧ (row.is_retrieved = false → ∀ us : List Nat,
        ((runAttempts buf rid now us db st).2.filter isSuccess).length
          = if uid ∈ us then 1 else 0) := by
  refine ⟨?_, ?_, ?_, ?_⟩
  · cases hstate : row.is_retrieved
    · obtain ⟨st2, o, heq, hsucc, _, _, _, _, _⟩ :=
        get_report_owner_unretrieved buf db st rid uid now row hmem hid huid huniq hstate
      rw [heq]
      simpa using hsucc
    · rw [get_report_owner_gone buf db st rid uid now row hmem hid huid huniq hstate]
      simp [isSuccess]
  · intro hunret
    obtain ⟨st2, o, heq, _, hmem2, huniq2, _, _, _⟩ :=
      get_report_owner_unretrieved buf db st rid uid now row hmem hid huid huniq hunret
    rw [heq]
    exact ⟨hmem2, huniq2⟩
  · intro hunret
    obtain ⟨st2, o, heq, _, hmem2, huniq2, hid2, huid2, hret2⟩ :=
      get_report_owner_unretrieved buf db st rid uid now row hmem hid huid huniq hunret
    rw [heq]
    exact get_report_owner_gone buf _ st2 rid uid now (flipRetrieved now row)
      hmem2 hid2 huid2 huniq2 hret2
  · intro hunret us
    exact runAttempts_exactly_one buf rid uid now row us db st hmem hid huid huniq hunret

/-- Witness for C1: one row owned by user 7; the attempt sequence
stranger, owner, owner yields exactly one success. -/
theorem one_shot_report_retrieval_witness :
    (⟨1, 7, false, none, "eki:buf:r"⟩ : ReportRow) ∈ oneShotDb
    ∧ ((runAttempts natBuffer 1 99 [5, 7, 7] oneShotDb natStore).2.filter isSuccess).length
        = 1 := by
  have h := one_shot_report_retrieval natBuffer oneShotDb natStore 1 7 99
    ⟨1, 7, false, none, "eki:buf:r"⟩ (by decide) (by decide) (by decide) (by decide)
  have h4 := h.2.2.2 rfl [5, 7, 7]
  refine ⟨by decide, ?_⟩
  rw [h4]
  decide
